import Mathlib

/-! Shallow embedding of the two-tier cache (cache.go): a read-through,
write-through cache in front of a remote key-value store (redis) and an
optional in-process local cache, with TTL emulation for the local tier and
a coalescing Once operation.  Machine integers are modelled as Nat/Int,
byte strings as lists of Nat, fallible operations return Except, and the
mutable tiers are threaded as explicit state.  The singleflight group is
modelled sequentially: a single caller runs the group body directly, and
the Go panic in localGet is modelled as a distinguished outcome. -/

abbrev Bytes := List Nat

/-- Errors of the embedding: the two sentinel errors of cache.go
(ErrCacheMiss and errRedisLocalCacheNil), injected remote transport
errors, serializer and producer failures, the panic branch of localGet,
and fuel exhaustion of the recursive Once. -/
inductive GoErr where
  | cacheMiss
  | redisLocalCacheNil
  | transport (n : Nat)
  | marshalFail (n : Nat)
  | unmarshalFail (n : Nat)
  | funcFail (n : Nat)
  | panicNotReached
  | outOfFuel
deriving DecidableEq, Repr

/-- Duration constants of Go time, in nanoseconds. -/
def timeSecond : Int := 1000000000

def timeMinute : Int := 60 * timeSecond

def timeHour : Int := 3600 * timeSecond

/-- Modelled from the spec: the TTL codec function encodeTime lives in a
repository file not under src/; the spec requires a 4-byte timestamp that
round-trips at an implementation-defined resolution with accepted
wraparound, so the instant's tick count is stored truncated to 32 bits,
big-endian. -/
def encodeTime (t : Nat) : Bytes :=
  [t / 16777216 % 256, t / 65536 % 256, t / 256 % 256, t % 256]

/-- Modelled from the spec: decodeTime is the inverse of encodeTime on
4-byte strings (any other length yields instant 0). -/
def decodeTime : Bytes → Nat
  | [a, b, c, d] => ((a * 256 + b) * 256 + c) * 256 + d
  | _ => 0

/-- Association-list lookup keyed by strings. -/
def lookupA {β : Type} : List (String × β) → String → Option β
  | [], _ => none
  | (k, v) :: t, key => if k = key then some v else lookupA t key

/-- Remove every binding of a key from an association list. -/
def eraseA {β : Type} : List (String × β) → String → List (String × β)
  | [], _ => []
  | (k, v) :: t, key => if k = key then eraseA t key else (k, v) :: eraseA t key

/-- Overwrite the binding of a key in an association list. -/
def updAssoc {β : Type} (l : List (String × β)) (key : String) (v : β) :
    List (String × β) :=
  (key, v) :: eraseA l key

/-- Modelled from the spec: the serializer pair marshal and unmarshal lives
in a repository file not under src/; it is an abstract encode/decode pair
over an arbitrary value type.  Marshal takes an optional value because Go
marshals the nil interface as well; unmarshal returns the decoded value in
place of writing through the target pointer. -/
structure Serializer (α : Type) where
  marshal : Option α → Except GoErr Bytes
  unmarshal : Bytes → Except GoErr α

/-- Configuration of the cache (Options in cache.go): presence of the two
tier handles, the local staleness window, and the statistics toggle. -/
structure Options where
  redisPresent : Bool
  localCachePresent : Bool
  localCacheTTL : Int
  statsEnabled : Bool
deriving DecidableEq, Repr

/-- Options.init from cache.go: a configured window of -1 becomes 0 and a
configured window of 0 becomes one minute; every other value is kept. -/
def Options.init (o : Options) : Options :=
  if o.localCacheTTL = -1 then { o with localCacheTTL := 0 }
  else if o.localCacheTTL = 0 then { o with localCacheTTL := timeMinute }
  else o

/-- Item from cache.go: the per-call request descriptor.  The value field
doubles, as in Go, as the datum for Set and as the decode target for Get
and Once, where only its nil-ness is inspected before decoding. -/
structure Item (α : Type) where
  key : String
  value : Option α
  ttl : Int
  func : Option (Except GoErr (Option α))

/-- Item.exp from cache.go: resolve the requested TTL for a remote write. -/
def Item.exp {α : Type} (item : Item α) : Int :=
  if item.ttl < 0 then 0
  else if item.ttl < timeSecond then timeHour
  else item.ttl

/-- Item.value() from cache.go: an explicit value wins over the producer;
with neither present the nil interface is returned. -/
def Item.valueFn {α : Type} (item : Item α) : Except GoErr (Option α) :=
  match item.value with
  | some v => .ok (some v)
  | none =>
    match item.func with
    | some f => f
    | none => .ok none

/-- The bare call item.Func() made by the Once leader; calling a nil Func
would panic in Go, modelled as the panic outcome. -/
def Item.runFunc {α : Type} (item : Item α) : Except GoErr (Option α) :=
  match item.func with
  | some f => f
  | none => .error .panicNotReached

/-- Mutable state of the two tiers and the statistics counters.  Remote
entries carry the expiration passed to redis Set; the fault lists inject
remote transport failures per key. -/
structure St where
  redisData : List (String × (Bytes × Int))
  redisGetFaults : List (String × GoErr)
  redisDelFaults : List (String × GoErr)
  localData : List (String × Bytes)
  hits : Nat
  misses : Nat
deriving DecidableEq, Repr

/-- Result of localGet: miss, hit with the stripped payload, or the
panic("not reached") branch. -/
inductive LocalRes where
  | miss
  | hit (b : Bytes)
  | panicked
deriving DecidableEq, Repr

/-- Cache.localSet from cache.go: with a positive staleness window the
4-byte encoding of now is appended before storing. -/
def Cache.localSet (o : Options) (loc : List (String × Bytes)) (now : Nat)
    (key : String) (b : Bytes) : List (String × Bytes) :=
  if 0 < o.localCacheTTL then updAssoc loc key (b ++ encodeTime now)
  else updAssoc loc key b

/-- Cache.localGet from cache.go: empty payloads and window 0 are returned
as-is; otherwise a stored payload of at most 4 bytes panics, and the
trailing 4 bytes decide staleness and are stripped from a hit. -/
def Cache.localGet (o : Options) (loc : List (String × Bytes)) (now : Nat)
    (key : String) : LocalRes :=
  match lookupA loc key with
  | none => .miss
  | some b =>
    if b.length = 0 ∨ o.localCacheTTL = 0 then .hit b
    else if b.length ≤ 4 then .panicked
    else if o.localCacheTTL < (now : Int) - (decodeTime (b.drop (b.length - 4)) : Int) then
      .miss
    else .hit (b.take (b.length - 4))

/-- Record a miss statistic when statistics are enabled. -/
def Cache.bumpMiss (o : Options) (st : St) : St :=
  if o.statsEnabled then { st with misses := st.misses + 1 } else st

/-- Record a hit statistic when statistics are enabled. -/
def Cache.bumpHit (o : Options) (st : St) : St :=
  if o.statsEnabled then { st with hits := st.hits + 1 } else st

/-- Cache.getBytes from cache.go: local tier first (a hit short-circuits),
then the configuration check, then the remote store with the write-back of
a remote hit into the local tier. -/
def Cache.getBytes (o : Options) (st : St) (now : Nat) (key : String) :
    Except GoErr Bytes × St :=
  match (if o.localCachePresent then Cache.localGet o st.localData now key else .miss) with
  | .hit b => (.ok b, st)
  | .panicked => (.error .panicNotReached, st)
  | .miss =>
    if o.redisPresent then
      match lookupA st.redisGetFaults key with
      | some e => (.error e, Cache.bumpMiss o st)
      | none =>
        match lookupA st.redisData key with
        | none => (.error .cacheMiss, Cache.bumpMiss o st)
        | some bexp =>
          let st1 := Cache.bumpHit o st
          let st2 :=
            if o.localCachePresent then
              { st1 with localData := Cache.localSet o st1.localData now key bexp.1 }
            else st1
          (.ok bexp.1, st2)
    else if o.localCachePresent then (.error .cacheMiss, st)
    else (.error .redisLocalCacheNil, st)

/-- Cache.set from cache.go: marshal, write the local tier, then either
return the configuration error, the bytes alone, or the bytes after the
remote write (the remote Set is modelled as always acknowledging). -/
def Cache.set {α : Type} (S : Serializer α) (o : Options) (st : St) (now : Nat)
    (key : String) (value : Option α) (exp : Int) : Except GoErr Bytes × St :=
  match S.marshal value with
  | .error e => (.error e, st)
  | .ok b =>
    let st1 :=
      if o.localCachePresent then
        { st with localData := Cache.localSet o st.localData now key b }
      else st
    if o.redisPresent then
      (.ok b, { st1 with redisData := updAssoc st1.redisData key (b, exp) })
    else if o.localCachePresent then (.ok b, st1)
    else (.error .redisLocalCacheNil, st1)

/-- Cache.get from cache.go: fetch bytes, skip decoding when the target is
nil or the payload empty, otherwise unmarshal. -/
def Cache.get {α : Type} (S : Serializer α) (o : Options) (st : St) (now : Nat)
    (key : String) (hasTarget : Bool) : Except GoErr (Option α) × St :=
  match Cache.getBytes o st now key with
  | (.error e, st1) => (.error e, st1)
  | (.ok b, st1) =>
    if hasTarget = false ∨ b.length = 0 then (.ok none, st1)
    else
      match S.unmarshal b with
      | .error e => (.error e, st1)
      | .ok v => (.ok (some v), st1)

/-- Cache.Exists from cache.go: a Get with a nil target, reduced to a
boolean. -/
def Cache.Exists {α : Type} (S : Serializer α) (o : Options) (st : St) (now : Nat)
    (key : String) : Bool × St :=
  match Cache.get S o st now key false with
  | (.error _, st1) => (false, st1)
  | (.ok _, st1) => (true, st1)

/-- Cache.Set from cache.go: resolve the item's value, then delegate to the
lower-case set with the resolved expiration. -/
def Cache.Set {α : Type} (S : Serializer α) (o : Options) (st : St) (now : Nat)
    (item : Item α) : Except GoErr Unit × St :=
  match item.valueFn with
  | .error e => (.error e, st)
  | .ok v =>
    match Cache.set S o st now item.key v item.exp with
    | (.error e, st1) => (.error e, st1)
    | (.ok _, st1) => (.ok (), st1)

/-- Cache.Delete from cache.go: the local entry is removed unconditionally;
without a remote store the result depends on configuration; with one, a
removal count of zero is reported as a cache miss. -/
def Cache.Delete (o : Options) (st : St) (key : String) : Except GoErr Unit × St :=
  let st1 :=
    if o.localCachePresent then { st with localData := eraseA st.localData key }
    else st
  if o.redisPresent then
    match lookupA st1.redisDelFaults key with
    | some e => (.error e, st1)
    | none =>
      let deleted : Nat := if (lookupA st1.redisData key).isSome then 1 else 0
      let st2 := { st1 with redisData := eraseA st1.redisData key }
      if deleted = 0 then (.error .cacheMiss, st2) else (.ok (), st2)
  else if o.localCachePresent then (.ok (), st1)
  else (.error .redisLocalCacheNil, st1)

/-- Body of the closure passed to group.Do inside getSetItemBytesOnce; the
sequential model of the singleflight group runs it directly for the single
caller.  Note that the error of getBytes is discarded before the producer
runs, exactly as the Go closure shadows err. -/
def Cache.onceBody {α : Type} (S : Serializer α) (o : Options) (st : St) (now : Nat)
    (item : Item α) : Except GoErr (Bytes × Bool) × St :=
  match Cache.getBytes o st now item.key with
  | (.ok b, st1) => (.ok (b, true), st1)
  | (.error _, st1) =>
    match item.runFunc with
    | .error e => (.error e, st1)
    | .ok v =>
      match Cache.set S o st1 now item.key v item.exp with
      | (.error e, st2) => (.error e, st2)
      | (.ok b, st2) => (.ok (b, false), st2)

/-- Cache.getSetItemBytesOnce from cache.go: the local fast path, then the
group body.  The boolean is the provenance flag cached. -/
def Cache.getSetItemBytesOnce {α : Type} (S : Serializer α) (o : Options) (st : St)
    (now : Nat) (item : Item α) : Except GoErr (Bytes × Bool) × St :=
  match (if o.localCachePresent then Cache.localGet o st.localData now item.key else .miss) with
  | .hit b => (.ok (b, true), st)
  | .panicked => (.error .panicNotReached, st)
  | .miss => Cache.onceBody S o st now item

/-- Cache.Once from cache.go.  The Go function recurses after a cached
decode failure (discarding the Delete error), and that recursion can
genuinely diverge when the remote entry survives the delete, so the
embedding takes an explicit fuel bound on the number of attempts. -/
def Cache.Once {α : Type} (S : Serializer α) (o : Options) :
    Nat → St → Nat → Item α → Except GoErr (Option α) × St
  | 0, st, _, _ => (.error .outOfFuel, st)
  | fuel + 1, st, now, item =>
    match Cache.getSetItemBytesOnce S o st now item with
    | (.error e, st1) => (.error e, st1)
    | (.ok (b, cached), st1) =>
      if item.value.isNone ∨ b.length = 0 then (.ok none, st1)
      else
        match S.unmarshal b with
        | .ok v => (.ok (some v), st1)
        | .error e =>
          if cached then Cache.Once S o fuel (Cache.Delete o st1 item.key).2 now item
          else (.error e, st1)

/-! Helper lemmas about the association lists and the TTL codec. -/

theorem lookupA_updAssoc_self {β : Type} (l : List (String × β)) (key : String) (v : β) :
    lookupA (updAssoc l key v) key = some v := by
  simp [updAssoc, lookupA]

theorem encodeTime_length (t : Nat) : (encodeTime t).length = 4 := rfl

theorem decodeTime_encodeTime (t : Nat) (h : t < 4294967296) :
    decodeTime (encodeTime t) = t := by
  simp only [decodeTime, encodeTime]
  omega

/-- Behaviour of localGet on an entry just written by localSet under a
positive staleness window: a miss when strictly older than the window, the
original payload otherwise. -/
theorem localGet_localSet_pos (o : Options) (loc : List (String × Bytes))
    (key : String) (b : Bytes) (t1 t2 : Nat)
    (hpos : 0 < o.localCacheTTL) (hb : b ≠ []) (ht : t1 < 4294967296) :
    Cache.localGet o (Cache.localSet o loc t1 key b) t2 key =
      if o.localCacheTTL < (t2 : Int) - (t1 : Int) then .miss else .hit b := by
  have hb0 : b.length ≠ 0 := fun h => hb (List.length_eq_zero.mp h)
  have hlen : (b ++ encodeTime t1).length = b.length + 4 := by
    simp [encodeTime]
  simp only [Cache.localSet, if_pos hpos, Cache.localGet, lookupA_updAssoc_self]
  rw [hlen]
  rw [if_neg (by omega : ¬(b.length + 4 = 0 ∨ o.localCacheTTL = 0))]
  rw [if_neg (by omega : ¬(b.length + 4 ≤ 4))]
  rw [show b.length + 4 - 4 = b.length from by omega]
  rw [List.drop_left, List.take_left, decodeTime_encodeTime t1 ht]

/-! Concrete test fixtures used by witnesses and counterexamples. -/

/-- Test serializer over Int: a value n is encoded as the two bytes
[1, |n| mod 256]; the nil interface as [192]. -/
def intSer : Serializer Int where
  marshal v :=
    match v with
    | none => .ok [192]
    | some n => .ok [1, n.natAbs % 256]
  unmarshal b :=
    match b with
    | [1, k] => .ok (Int.ofNat k)
    | _ => .error (.unmarshalFail 0)

/-- State with both tiers empty and no injected faults. -/
def emptySt : St := ⟨[], [], [], [], 0, 0⟩

/-- Remote-only configuration, statistics disabled. -/
def optsR : Options := ⟨true, false, 0, false⟩

/-- Both tiers configured, never-stale local window. -/
def optsRL : Options := ⟨true, true, 0, false⟩

/-! Claim theorems. -/

/-- C3, counterexample: a configured staleness window of -2 survives
Options.init unchanged, and a locally written 3-byte entry does not read
back at all under it -- localGet hits the panic branch instead of
treating the entry as never stale. -/
theorem negative_ttl_not_never_stale :
    (Options.init ⟨false, true, -2, false⟩).localCacheTTL = -2 ∧
    Cache.localGet (Options.init ⟨false, true, -2, false⟩)
      (Cache.localSet (Options.init ⟨false, true, -2, false⟩) [] 0 "k" [1, 2, 3]) 0 "k"
      = .panicked := by
  constructor
  · decide
  · decide

/-- C3 (amended): the staleness regimes of the local window.  A configured
window of -1 is normalized to 0 (the never-stale regime: entries are
stored unmodified and always read back); a configured window of 0 becomes
the default of one minute; a positive window is kept by init and used
exactly: a nonempty payload written at t1 reads as a miss when strictly
more than the window has elapsed and as the original payload otherwise.
Negative windows other than -1 are not normalized (see the
counterexample). -/
theorem localTTL_regimes (o : Options) (loc : List (String × Bytes)) (key : String)
    (b : Bytes) (t1 t2 : Nat) :
    ((Options.init ⟨o.redisPresent, o.localCachePresent, -1, o.statsEnabled⟩).localCacheTTL
        = 0) ∧
    ((Options.init ⟨o.redisPresent, o.localCachePresent, 0, o.statsEnabled⟩).localCacheTTL
        = timeMinute) ∧
    (0 < o.localCacheTTL → Options.init o = o) ∧
    (o.localCacheTTL = 0 →
      lookupA (Cache.localSet o loc t1 key b) key = some b ∧
      Cache.localGet o (Cache.localSet o loc t1 key b) t2 key = .hit b) ∧
    (0 < o.localCacheTTL → b ≠ [] → t1 < 4294967296 →
      Cache.localGet o (Cache.localSet o loc t1 key b) t2 key =
        if o.localCacheTTL < (t2 : Int) - (t1 : Int) then .miss else .hit b) := by
  refine ⟨by simp [Options.init], by simp [Options.init, timeMinute, timeSecond], ?_, ?_, ?_⟩
  · intro h
    unfold Options.init
    rw [if_neg (by omega), if_neg (by omega)]
  · intro h
    have hset : Cache.localSet o loc t1 key b = updAssoc loc key b := by
      simp [Cache.localSet, h]
    refine ⟨by rw [hset, lookupA_updAssoc_self], ?_⟩
    rw [hset]
    simp [Cache.localGet, lookupA_updAssoc_self, h]
  · exact localGet_localSet_pos o loc key b t1 t2

/-- C3 witness: with window 50 a payload written at instant 0 reads back
at instant 30 and misses at instant 100. -/
theorem localTTL_regimes_witness :
    Cache.localGet ⟨false, true, 50, false⟩
      (Cache.localSet ⟨false, true, 50, false⟩ [] 0 "k" [9]) 30 "k" = .hit [9] ∧
    Cache.localGet ⟨false, true, 50, false⟩
      (Cache.localSet ⟨false, true, 50, false⟩ [] 0 "k" [9]) 100 "k" = .miss := by
  constructor
  · rw [(localTTL_regimes ⟨false, true, 50, false⟩ [] "k" [9] 0 30).2.2.2.2
      (by decide) (by decide) (by decide)]
    decide
  · rw [(localTTL_regimes ⟨false, true, 50, false⟩ [] "k" [9] 0 100).2.2.2.2
      (by decide) (by decide) (by decide)]
    decide

/-- C4: TTL resolution for remote writes.  A negative requested TTL
resolves to expiration 0, a TTL below one second resolves to one hour, a
TTL of at least one second is used as given, and Set passes exactly the
resolved expiration to the remote store. -/
theorem ttl_resolution_remote_write {α : Type} (item : Item α) (S : Serializer α)
    (o : Options) (st : St) (now : Nat) (v : Option α) (b : Bytes)
    (hrv : item.valueFn = .ok v) (hm : S.marshal v = .ok b)
    (hr : o.redisPresent = true) :
    (item.ttl < 0 → item.exp = 0) ∧
    (0 ≤ item.ttl → item.ttl < timeSecond → item.exp = timeHour) ∧
    (timeSecond ≤ item.ttl → item.exp = item.ttl) ∧
    lookupA (Cache.Set S o st now item).2.redisData item.key = some (b, item.exp) := by
  refine ⟨?_, ?_, ?_, ?_⟩
  · intro h
    simp [Item.exp, h]
  · intro h1 h2
    unfold Item.exp
    rw [if_neg (by omega), if_pos h2]
  · intro h
    have hs : (0 : Int) < timeSecond := by decide
    unfold Item.exp
    rw [if_neg (by omega), if_neg (by omega)]
  · simp only [Cache.Set, hrv, Cache.set, hm, hr, if_true]
    exact lookupA_updAssoc_self _ _ _

/-- C4 witness: a requested TTL of -3 is stored remotely with expiration 0. -/
theorem ttl_resolution_remote_write_witness :
    (Item.mk "k" (some (5 : Int)) (-3) none).exp = 0 ∧
    lookupA (Cache.Set intSer optsR emptySt 0
        (Item.mk "k" (some (5 : Int)) (-3) none)).2.redisData "k" = some ([1, 5], 0) := by
  have h := ttl_resolution_remote_write (Item.mk "k" (some (5 : Int)) (-3) none)
    intSer optsR emptySt 0 (some 5) [1, 5] rfl rfl rfl
  have he := h.1 (by decide)
  exact ⟨he, he ▸ h.2.2.2⟩

/-- C5, counterexample: with a positive staleness window an empty payload
written through localSet is stored as exactly 4 bytes (not strictly more
than 4), and the subsequent localGet reaches the panic branch. -/
theorem localSet_empty_payload_panics :
    lookupA (Cache.localSet ⟨false, true, timeMinute, false⟩ [] 7 "k" []) "k"
      = some (encodeTime 7) ∧
    (encodeTime 7).length = 4 ∧
    Cache.localGet ⟨false, true, timeMinute, false⟩
      (Cache.localSet ⟨false, true, timeMinute, false⟩ [] 7 "k" []) 8 "k" = .panicked := by
  refine ⟨by decide, rfl, by decide⟩

/-- C5 (amended): with a positive staleness window, every nonempty payload
stored through localSet occupies strictly more than 4 bytes, and localGet
never reaches the panic branch on such an entry. -/
theorem localSet_nonempty_payload_len (o : Options) (loc : List (String × Bytes))
    (key : String) (b : Bytes) (t1 t2 : Nat)
    (hpos : 0 < o.localCacheTTL) (hb : b ≠ []) :
    lookupA (Cache.localSet o loc t1 key b) key = some (b ++ encodeTime t1) ∧
    4 < (b ++ encodeTime t1).length ∧
    Cache.localGet o (Cache.localSet o loc t1 key b) t2 key ≠ .panicked := by
  have hb0 : b.length ≠ 0 := fun h => hb (List.length_eq_zero.mp h)
  have hlen : (b ++ encodeTime t1).length = b.length + 4 := by
    simp [encodeTime]
  refine ⟨?_, by omega, ?_⟩
  · simp [Cache.localSet, if_pos hpos, lookupA_updAssoc_self]
  · simp only [Cache.localSet, if_pos hpos, Cache.localGet, lookupA_updAssoc_self]
    rw [hlen]
    rw [if_neg (by omega : ¬(b.length + 4 = 0 ∨ o.localCacheTTL = 0))]
    rw [if_neg (by omega : ¬(b.length + 4 ≤ 4))]
    split
    · simp
    · simp

/-- C5 witness: a one-byte payload under a one-minute window is stored as
5 bytes and reads back without panicking. -/
theorem localSet_nonempty_payload_len_witness :
    lookupA (Cache.localSet ⟨false, true, timeMinute, false⟩ [] 0 "k" [9]) "k"
      = some ([9] ++ encodeTime 0) ∧
    4 < ([9] ++ encodeTime 0).length ∧
    Cache.localGet ⟨false, true, timeMinute, false⟩
      (Cache.localSet ⟨false, true, timeMinute, false⟩ [] 0 "k" [9]) 0 "k" ≠ .panicked :=
  localSet_nonempty_payload_len ⟨false, true, timeMinute, false⟩ [] "k" [9] 0 0
    (by decide) (by decide)

/-- Erasing a key removes its binding. -/
theorem lookupA_eraseA {β : Type} (l : List (String × β)) (key : String) :
    lookupA (eraseA l key) key = none := by
  induction l with
  | nil => rfl
  | cons p t ih =>
    obtain ⟨k, v⟩ := p
    by_cases h : k = key
    · simpa [eraseA, h] using ih
    · simp [eraseA, h, lookupA, ih]

/-- C6: with the remote store configured and no injected delete fault,
Delete removes the key from the local tier unconditionally, reports
cache-miss exactly when the remote removed zero keys and success when it
removed one, and leaves the key absent remotely. -/
theorem delete_semantics (o : Options) (st : St) (key : String)
    (hr : o.redisPresent = true) (hf : lookupA st.redisDelFaults key = none) :
    (o.localCachePresent = true →
      lookupA (Cache.Delete o st key).2.localData key = none) ∧
    ((Cache.Delete o st key).1 =
      if (lookupA st.redisData key).isSome then .ok () else .error .cacheMiss) ∧
    lookupA (Cache.Delete o st key).2.redisData key = none := by
  cases hlc : o.localCachePresent <;>
    cases hd : lookupA st.redisData key <;>
      simp [Cache.Delete, hr, hf, hlc, hd, lookupA_eraseA]

/-- C6 witness: deleting a key present only in the local tier reports
cache-miss even though the local entry is removed. -/
theorem delete_semantics_witness :
    (Cache.Delete optsRL ⟨[], [], [], [("k", [7])], 0, 0⟩ "k").1 = .error .cacheMiss ∧
    lookupA (Cache.Delete optsRL ⟨[], [], [], [("k", [7])], 0, 0⟩ "k").2.localData "k"
      = none := by
  have h := delete_semantics optsRL ⟨[], [], [], [("k", [7])], 0, 0⟩ "k" rfl rfl
  refine ⟨?_, h.1 rfl⟩
  rw [h.2.1]
  rfl

/-- C7: assuming the serializer round-trip law for v (its encoding is
nonempty and decodes back to v), Set followed by Get succeeds and yields
v, whether the read is satisfied by the local tier (never-stale window, or
a positive window not yet elapsed) or by the remote tier alone. -/
theorem set_get_roundtrip {α : Type} (S : Serializer α) (o : Options) (st : St)
    (key : String) (v : α) (b : Bytes) (ttl : Int) (t1 t2 : Nat)
    (hm : S.marshal (some v) = .ok b) (hb : b ≠ []) (hu : S.unmarshal b = .ok v)
    (hf : lookupA st.redisGetFaults key = none) :
    (o.localCachePresent = true →
      (o.localCacheTTL = 0 ∨
        (0 < o.localCacheTTL ∧ t1 < 4294967296 ∧
          (t2 : Int) - (t1 : Int) ≤ o.localCacheTTL)) →
      (Cache.Set S o st t1 (Item.mk key (some v) ttl none)).1 = .ok () ∧
      (Cache.get S o (Cache.Set S o st t1 (Item.mk key (some v) ttl none)).2
          t2 key true).1 = .ok (some v)) ∧
    (o.localCachePresent = false → o.redisPresent = true →
      (Cache.Set S o st t1 (Item.mk key (some v) ttl none)).1 = .ok () ∧
      (Cache.get S o (Cache.Set S o st t1 (Item.mk key (some v) ttl none)).2
          t2 key true).1 = .ok (some v)) := by
  constructor
  · intro hlc httl
    have hset : (Cache.Set S o st t1 (Item.mk key (some v) ttl none)).1 = .ok ()
        ∧ (Cache.Set S o st t1 (Item.mk key (some v) ttl none)).2.localData
            = Cache.localSet o st.localData t1 key b := by
      cases hr : o.redisPresent <;>
        simp [Cache.Set, Item.valueFn, Cache.set, hm, hlc, hr]
    have hlg : Cache.localGet o (Cache.localSet o st.localData t1 key b) t2 key
        = .hit b := by
      rcases httl with h0 | ⟨hpos, ht, hle⟩
      · simp [Cache.localSet, h0, Cache.localGet, lookupA_updAssoc_self]
      · rw [localGet_localSet_pos o st.localData key b t1 t2 hpos hb ht,
          if_neg (by omega)]
    refine ⟨hset.1, ?_⟩
    simp only [Cache.get, Cache.getBytes, hlc, if_true]
    rw [hset.2, hlg]
    simp [hu, hb, List.length_eq_zero]
  · intro hlc hr
    refine ⟨?_, ?_⟩
    · simp [Cache.Set, Item.valueFn, Cache.set, hm, hlc, hr]
    · simp [Cache.Set, Item.valueFn, Cache.set, hm, hlc, hr, Cache.get, Cache.getBytes,
        hf, lookupA_updAssoc_self, Cache.bumpHit, hu, hb, List.length_eq_zero]

/-- C7 witness: a round trip through the local tier and one through the
remote tier alone, for the value 5 under the test serializer. -/
theorem set_get_roundtrip_witness :
    (Cache.get intSer ⟨false, true, 0, false⟩
        (Cache.Set intSer ⟨false, true, 0, false⟩ emptySt 0
          (Item.mk "k" (some (5 : Int)) 0 none)).2 0 "k" true).1 = .ok (some 5) ∧
    (Cache.get intSer optsR
        (Cache.Set intSer optsR emptySt 0
          (Item.mk "k" (some (5 : Int)) 0 none)).2 0 "k" true).1 = .ok (some 5) := by
  constructor
  · exact ((set_get_roundtrip intSer ⟨false, true, 0, false⟩ emptySt "k" 5 [1, 5] 0 0 0
      rfl (by decide) rfl rfl).1 rfl (Or.inl rfl)).2
  · exact ((set_get_roundtrip intSer optsR emptySt "k" 5 [1, 5] 0 0 0
      rfl (by decide) rfl rfl).2 rfl rfl).2

/-- Configuration with both tier handles absent. -/
def optsNone : Options := ⟨false, false, 0, false⟩

/-- C8, counterexample: with both tier handles absent, Once whose producer
fails returns the producer's error, not the configuration error, so not
every operation fails with the configuration error. -/
theorem once_both_nil_producer_error :
    (Cache.Once intSer optsNone 2 emptySt 0
        (Item.mk "k" (some 0) 0 (some (.error (.funcFail 3))))).1
      = .error (.funcFail 3) ∧
    GoErr.funcFail 3 ≠ GoErr.redisLocalCacheNil := by
  exact ⟨rfl, by decide⟩

/-- C8 (amended): with both tier handles absent, Get and Delete fail with
the configuration error unconditionally; Set and Once also fail with the
configuration error provided the caller-supplied value resolution,
producer and serializer succeed -- otherwise that earlier failure
propagates instead (see the counterexample). -/
theorem both_nil_config_error {α : Type} (S : Serializer α) (st : St) (now fuel : Nat)
    (key : String) (tgt : Bool) (item : Item α) (o : Options)
    (hr : o.redisPresent = false) (hl : o.localCachePresent = false) :
    (Cache.get S o st now key tgt).1 = .error .redisLocalCacheNil ∧
    (Cache.Delete o st key).1 = .error .redisLocalCacheNil ∧
    (∀ v b, item.valueFn = .ok v → S.marshal v = .ok b →
      (Cache.Set S o st now item).1 = .error .redisLocalCacheNil) ∧
    (∀ v b, item.runFunc = .ok v → S.marshal v = .ok b →
      (Cache.Once S o (fuel + 1) st now item).1 = .error .redisLocalCacheNil) := by
  refine ⟨?_, ?_, ?_, ?_⟩
  · simp [Cache.get, Cache.getBytes, hr, hl]
  · simp [Cache.Delete, hr, hl]
  · intro v b hv hm
    simp [Cache.Set, hv, Cache.set, hm, hr, hl]
  · intro v b hv hm
    simp [Cache.Once, Cache.getSetItemBytesOnce, Cache.onceBody, Cache.getBytes,
      Cache.set, hr, hl, hv, hm]

/-- C8 witness: with both tiers absent and a well-behaved producer and
serializer, all four operations fail with the configuration error. -/
theorem both_nil_config_error_witness :
    (Cache.get intSer optsNone emptySt 0 "k" true).1 = .error .redisLocalCacheNil ∧
    (Cache.Delete optsNone emptySt "k").1 = .error .redisLocalCacheNil ∧
    (Cache.Set intSer optsNone emptySt 0
        (Item.mk "k" (some 5) 0 none)).1 = .error .redisLocalCacheNil ∧
    (Cache.Once intSer optsNone 1 emptySt 0
        (Item.mk "k" (some 0) 0 (some (.ok (some 5))))).1
      = .error .redisLocalCacheNil := by
  have h := both_nil_config_error intSer emptySt 0 0 "k" true
    (Item.mk "k" (some 0) 0 (some (.ok (some 5)))) optsNone rfl rfl
  have h2 := both_nil_config_error intSer emptySt 0 0 "k" true
    (Item.mk "k" (some (5 : Int)) 0 none) optsNone rfl rfl
  exact ⟨h.1, h.2.1, h2.2.2.1 (some 5) [1, 5] rfl rfl, h.2.2.2 (some 5) [1, 5] rfl rfl⟩

/-- State for the transport-error scenario: the remote store holds the key
but its Get fails with an injected transport error. -/
def stC9 : St := ⟨[("k", ([1, 7], 0))], [("k", .transport 5)], [], [], 0, 0⟩

/-- C9, counterexample: a remote transport error from the read does not
propagate out of Once; the producer is invoked instead, and its failure is
what the caller sees. -/
theorem transport_error_calls_producer :
    (Cache.getBytes optsR stC9 0 "k").1 = .error (.transport 5) ∧
    (Cache.Once intSer optsR 1 stC9 0
        (Item.mk "k" (some 0) 0 (some (.error (.funcFail 3))))).1
      = .error (.funcFail 3) ∧
    GoErr.funcFail 3 ≠ GoErr.transport 5 := by
  exact ⟨rfl, rfl, by decide⟩

/-- C9 (amended): the leader invokes the producer whenever its read fails,
for any reason (cache miss, transport error, or configuration error); the
read error is discarded rather than propagated, and the group result is
the producer's failure or, on producer success, the outcome of the write
with the fresh provenance flag. -/
theorem read_error_invokes_producer {α : Type} (S : Serializer α) (o : Options)
    (st st1 : St) (now : Nat) (item : Item α) (e : GoErr)
    (hread : Cache.getBytes o st now item.key = (.error e, st1))
    (hmiss : o.localCachePresent = true →
      Cache.localGet o st.localData now item.key = .miss) :
    (∀ ef, item.runFunc = .error ef →
      Cache.getSetItemBytesOnce S o st now item = (.error ef, st1)) ∧
    (∀ v b st2, item.runFunc = .ok v →
      Cache.set S o st1 now item.key v item.exp = (.ok b, st2) →
      Cache.getSetItemBytesOnce S o st now item = (.ok (b, false), st2)) := by
  have hfast : (if o.localCachePresent then
      Cache.localGet o st.localData now item.key else .miss) = .miss := by
    by_cases hlc : o.localCachePresent = true
    · rw [if_pos hlc]
      exact hmiss hlc
    · rw [if_neg hlc]
  constructor
  · intro ef hef
    simp [Cache.getSetItemBytesOnce, hfast, Cache.onceBody, hread, hef]
  · intro v b st2 hv hset
    simp [Cache.getSetItemBytesOnce, hfast, Cache.onceBody, hread, hv, hset]

/-- C9 witness: on a plain cache miss the producer runs and its value is
written through, with provenance fresh. -/
theorem read_error_invokes_producer_witness :
    Cache.getSetItemBytesOnce intSer optsR emptySt 0
        (Item.mk "k" (some 0) 0 (some (.ok (some 5))))
      = (.ok ([1, 5], false), ⟨[("k", ([1, 5], timeHour))], [], [], [], 0, 0⟩) := by
  have h := read_error_invokes_producer intSer optsR emptySt emptySt 0
    (Item.mk "k" (some 0) 0 (some (.ok (some 5)))) .cacheMiss rfl (fun hx => by cases hx)
  exact h.2 (some 5) [1, 5] ⟨[("k", ([1, 5], timeHour))], [], [], [], 0, 0⟩ rfl rfl

/-- State whose remote tier holds an empty payload for the key. -/
def stEmptyVal : St := ⟨[("k", ([], 0))], [], [], [], 0, 0⟩

/-- C10: when the lookup succeeds, a nil decode target or an empty payload
makes Get return success without invoking the decoder (the result is
independent of the unmarshal function); Exists is likewise
decoder-independent and so never surfaces a decode error; the byte-fetch
phase of Once never invokes the decoder either; and Once whose target is
nil or whose shared bytes are empty returns success directly, never
reaching the decode branch and hence never the delete-and-retry healing
(the state is exactly the one left by getSetItemBytesOnce). -/
theorem nil_target_skips_decoder {α : Type} (m : Option α → Except GoErr Bytes)
    (u u2 : Bytes → Except GoErr α) (o : Options) (st : St) (now fuel : Nat)
    (key : String) (item : Item α) :
    (Cache.get ⟨m, u⟩ o st now key false = Cache.get ⟨m, u2⟩ o st now key false) ∧
    (∀ b st1, Cache.getBytes o st now key = (.ok b, st1) →
      (Cache.get ⟨m, u⟩ o st now key false).1 = .ok none) ∧
    (∀ st1, Cache.getBytes o st now key = (.ok [], st1) → ∀ tgt,
      Cache.get ⟨m, u⟩ o st now key tgt = (.ok none, st1)) ∧
    (Cache.Exists ⟨m, u⟩ o st now key = Cache.Exists ⟨m, u2⟩ o st now key) ∧
    (∀ it : Item α, Cache.getSetItemBytesOnce ⟨m, u⟩ o st now it
      = Cache.getSetItemBytesOnce ⟨m, u2⟩ o st now it) ∧
    (∀ b c st1, item.value = none ∨ b = [] →
      Cache.getSetItemBytesOnce ⟨m, u⟩ o st now item = (.ok (b, c), st1) →
      Cache.Once ⟨m, u⟩ o (fuel + 1) st now item = (.ok none, st1)) := by
  have hget : Cache.get ⟨m, u⟩ o st now key false
      = Cache.get ⟨m, u2⟩ o st now key false := by
    rcases hgb : Cache.getBytes o st now key with ⟨r, st1⟩
    cases r <;> simp [Cache.get, hgb]
  refine ⟨hget, ?_, ?_, ?_, ?_, ?_⟩
  · intro b st1 hgb
    simp [Cache.get, hgb]
  · intro st1 hgb tgt
    simp [Cache.get, hgb]
  · simp [Cache.Exists, hget]
  · intro it
    rfl
  · intro b c st1 hcond h
    rcases hcond with hv | hbe
    · simp [Cache.Once, h, hv]
    · subst hbe
      simp [Cache.Once, h]

/-- C10 witness: an empty remote payload reads as success with no decoded
value even under a decoder that always fails, and Once returns success
with the state left by the fetch both for a nil target and for a non-nil
target whose retrieved payload is empty. -/
theorem nil_target_skips_decoder_witness :
    Cache.get ⟨intSer.marshal, fun _ => .error (.unmarshalFail 9)⟩ optsR stEmptyVal 0
        "k" true = (.ok none, stEmptyVal) ∧
    Cache.Once ⟨intSer.marshal, fun _ => .error (.unmarshalFail 9)⟩ optsR 1 stEmptyVal 0
        (Item.mk "k" none 0 (some (.ok (some 5)))) = (.ok none, stEmptyVal) ∧
    Cache.Once ⟨intSer.marshal, fun _ => .error (.unmarshalFail 9)⟩ optsR 1 stEmptyVal 0
        (Item.mk "k" (some 0) 0 (some (.ok (some 5)))) = (.ok none, stEmptyVal) := by
  have h := nil_target_skips_decoder intSer.marshal
    (fun _ => .error (.unmarshalFail 9)) (fun _ => .error (.unmarshalFail 9))
    optsR stEmptyVal 0 0 "k" (Item.mk "k" none 0 (some (.ok (some 5))))
  have h2 := nil_target_skips_decoder intSer.marshal
    (fun _ => .error (.unmarshalFail 9)) (fun _ => .error (.unmarshalFail 9))
    optsR stEmptyVal 0 0 "k" (Item.mk "k" (some 0) 0 (some (.ok (some 5))))
  exact ⟨h.2.2.1 stEmptyVal rfl true,
    h.2.2.2.2.2 [] true stEmptyVal (Or.inl rfl) rfl,
    h2.2.2.2.2.2 [] true stEmptyVal (Or.inr rfl) rfl⟩

/-- Both tiers configured, never-stale window; the local tier holds
undecodable bytes for the key and the remote tier is empty, so the in-run
Delete fails with cache-miss. -/
def stC1 : St := ⟨[], [], [], [("k", [9])], 0, 0⟩

/-- Once request whose producer yields 42. -/
def itemC1 : Item Int := ⟨"k", some 0, 0, some (.ok (some 42))⟩

/-- C1, counterexample: the shared bytes come from cache and fail to
decode, and the in-run Delete itself fails (the remote removed zero keys),
yet Once does not propagate the decode error: the delete failure is
discarded, the retry proceeds, and the call succeeds with the freshly
produced value. -/
theorem once_delete_failure_still_retries :
    intSer.unmarshal [9] = .error (.unmarshalFail 0) ∧
    (Cache.Delete optsRL stC1 "k").1 = .error .cacheMiss ∧
    (Cache.Once intSer optsRL 2 stC1 0 itemC1).1 = .ok (some 42) := by
  exact ⟨rfl, rfl, rfl⟩

/-- C1 (amended): when the shared bytes fail to decode and they came from
cache, the key is deleted from both tiers and the whole Once runs again,
regardless of whether that delete succeeded (its error is discarded); when
the bytes came from a fresh producer invocation the decode error is
propagated directly.  With both tiers configured and no injected delete
fault, the delete does clear the key from both tiers. -/
theorem once_decode_failure_paths {α : Type} (S : Serializer α) (o : Options)
    (fuel : Nat) (st st1 : St) (now : Nat) (item : Item α) (b : Bytes) (e : GoErr)
    (hv : item.value.isSome = true) (hb : b ≠ []) (hu : S.unmarshal b = .error e) :
    (Cache.getSetItemBytesOnce S o st now item = (.ok (b, true), st1) →
      Cache.Once S o (fuel + 1) st now item
        = Cache.Once S o fuel (Cache.Delete o st1 item.key).2 now item) ∧
    (Cache.getSetItemBytesOnce S o st now item = (.ok (b, false), st1) →
      Cache.Once S o (fuel + 1) st now item = (.error e, st1)) ∧
    (o.localCachePresent = true → o.redisPresent = true →
      lookupA st1.redisDelFaults item.key = none →
      lookupA (Cache.Delete o st1 item.key).2.localData item.key = none ∧
      lookupA (Cache.Delete o st1 item.key).2.redisData item.key = none) := by
  rcases hval : item.value with _ | v0
  · rw [hval] at hv
    cases hv
  refine ⟨?_, ?_, ?_⟩
  · intro h
    simp [Cache.Once, h, hval, hu, hb, List.length_eq_zero]
  · intro h
    simp [Cache.Once, h, hval, hu, hb, List.length_eq_zero]
  · intro hlc hr hdf
    simp only [Cache.Delete, hlc, hr, hdf, if_true]
    split <;> simp [lookupA_eraseA]

/-- C1 witness: in the concrete corrupt-local-entry scenario, the first
Once attempt reduces to a retry on the state left by the (failed) delete,
and the delete clears both tiers. -/
theorem once_decode_failure_paths_witness :
    Cache.Once intSer optsRL 2 stC1 0 itemC1
      = Cache.Once intSer optsRL 1 (Cache.Delete optsRL stC1 "k").2 0 itemC1 ∧
    lookupA (Cache.Delete optsRL stC1 "k").2.localData "k" = none ∧
    lookupA (Cache.Delete optsRL stC1 "k").2.redisData "k" = none := by
  have h := once_decode_failure_paths intSer optsRL 1 stC1 stC1 0 itemC1 [9]
    (.unmarshalFail 0) rfl (by decide) rfl
  exact ⟨h.1 rfl, h.2.2 rfl rfl rfl⟩
